import Mathlib

/-
  A shallow embedding, in Lean, of the calibration / frame-scanning /
  scan-orchestration engine of the Fred_The_Video_Butcher_v2 repository
  (src/utils/visionDetection.ts, src/unnamed/part_000, src/unnamed/part_001).

  The external image-processing collaborator (OpenCV) is treated as an
  oracle: its per-image outputs (contours with their areas and bounding
  boxes, pixel counts inside a region for a given color range, the mean
  hue of a region) appear as fields of the input structures, and all
  numeric values are rationals.  JavaScript numeric operations used by
  the source (Math.floor, Math.round, Math.min, Math.max, the remainder
  operator on numbers) are modelled explicitly with their JavaScript
  semantics.
-/

namespace VisionButcher

-- ===================================================================
-- Numeric helpers with JavaScript semantics
-- ===================================================================

/-- JavaScript truncation toward zero of a rational number. -/
def jsTrunc (q : ℚ) : ℤ := if 0 ≤ q then ⌊q⌋ else -⌊-q⌋

/-- JavaScript remainder operator on numbers: q % m = q - m * trunc (q / m). -/
def jsRem (q m : ℚ) : ℚ := q - m * (jsTrunc (q / m) : ℚ)

-- ===================================================================
-- Color range model
-- (src/utils/visionDetection.ts lines 179-220, getHsvRange)
-- ===================================================================

structure RGB where
  r : ℚ
  g : ℚ
  b : ℚ
  deriving DecidableEq

structure HsvTol where
  h : ℚ
  s : ℚ
  v : ℚ
  deriving DecidableEq

/-- A 4-component scalar, as the OpenCV bound arrays [h, s, v, alpha]. -/
structure HsvScalar where
  h : ℚ
  s : ℚ
  v : ℚ
  a : ℚ
  deriving DecidableEq

structure HSVRange where
  lower : HsvScalar
  upper : HsvScalar
  deriving DecidableEq

/-- Hue (in degrees, before the OpenCV halving) produced by the min/max/delta
branch of getHsvRange, before the negative-value wrap.  The channels r g b are
already divided by 255.  The branch structure mirrors the source:
delta = 0 gives 0; max = r uses the JavaScript remainder by 6; max = g and
max = b use the +2 / +4 offsets. -/
def hsvHueRaw (r g b : ℚ) : ℚ :=
  if max r (max g b) - min r (min g b) = 0 then 0
  else if max r (max g b) = r then
    60 * jsRem ((g - b) / (max r (max g b) - min r (min g b))) 6
  else if max r (max g b) = g then
    60 * ((b - r) / (max r (max g b) - min r (min g b)) + 2)
  else 60 * ((r - g) / (max r (max g b) - min r (min g b)) + 4)

/-- Hue after the wrap `if (h < 0) h += 360` of getHsvRange. -/
def hsvHue (r g b : ℚ) : ℚ :=
  if hsvHueRaw r g b < 0 then hsvHueRaw r g b + 360 else hsvHueRaw r g b

/-- Saturation of getHsvRange: `max === 0 ? 0 : delta / max`. -/
def hsvSat (r g b : ℚ) : ℚ :=
  if max r (max g b) = 0 then 0
  else (max r (max g b) - min r (min g b)) / max r (max g b)

/-- Value of getHsvRange: the channel maximum. -/
def hsvVal (r g b : ℚ) : ℚ := max r (max g b)

/-- Hue on the OpenCV scale 0-180: cvH = h / 2. -/
def cvHue (rgb : RGB) : ℚ := hsvHue (rgb.r / 255) (rgb.g / 255) (rgb.b / 255) / 2

/-- Saturation on the OpenCV scale 0-255: cvS = s * 255. -/
def cvSat (rgb : RGB) : ℚ := hsvSat (rgb.r / 255) (rgb.g / 255) (rgb.b / 255) * 255

/-- Value on the OpenCV scale 0-255: cvV = v * 255. -/
def cvVal (rgb : RGB) : ℚ := hsvVal (rgb.r / 255) (rgb.g / 255) (rgb.b / 255) * 255

/-- getHsvRange of src/utils/visionDetection.ts: converts an RGB sample to
OpenCV HSV and applies the per-channel tolerance symmetrically, clamping
hue to [0,180] and saturation/value to [0,255]; the fourth (alpha)
component is the constant pair 0 / 255 of the source arrays. -/
def getHsvRange (rgb : RGB) (tol : HsvTol) : HSVRange :=
  ⟨⟨max 0 (cvHue rgb - tol.h), max 0 (cvSat rgb - tol.s), max 0 (cvVal rgb - tol.v), 0⟩,
   ⟨min 180 (cvHue rgb + tol.h), min 255 (cvSat rgb + tol.s), min 255 (cvVal rgb + tol.v), 255⟩⟩

-- ===================================================================
-- Calibration
-- (src/utils/visionDetection.ts lines 231-316: fixed-target-color
--  variant; lines 338-453: dominant-hue variant)
-- ===================================================================

/-- An OpenCV bounding rectangle (cv.boundingRect output, integer pixels). -/
structure Rect where
  x : ℤ
  y : ℤ
  width : ℤ
  height : ℤ
  deriving DecidableEq

/-- One external contour as reported by the collaborator: its
cv.contourArea and its cv.boundingRect. -/
structure Contour where
  area : ℚ
  rect : Rect
  deriving DecidableEq

/-- The collaborator-level view of a reference image: its pixel
dimensions and the external contours extracted from the segmentation
mask of the calibration color range, in the order cv.findContours
yields them. -/
structure RefImage where
  cols : ℤ
  rows : ℤ
  contours : List Contour
  deriving DecidableEq

structure NormalizedBox where
  x : ℚ
  y : ℚ
  w : ℚ
  h : ℚ
  deriving DecidableEq

structure Spatial where
  normalizedBox : NormalizedBox
  aspectRatio : ℚ
  deriving DecidableEq

structure TriadBounds where
  dark : HSVRange
  light : HSVRange
  white : HSVRange
  deriving DecidableEq

/-- VisionProfile of the fixed-target-color calibration variant
(src/utils/visionDetection.ts lines 149-161): triad color bounds plus a
spatial template. -/
structure VisionProfile where
  bounds : TriadBounds
  spatial : Spatial
  deriving DecidableEq

/-- Hardcoded target color MENU_DARK [14, 4, 49]. -/
def MENU_DARK : RGB := ⟨14, 4, 49⟩

/-- Hardcoded target color MENU_LIGHT [50, 4, 139]. -/
def MENU_LIGHT : RGB := ⟨50, 4, 139⟩

/-- The special white range of the source: low saturation, high value. -/
def whiteRange : HSVRange := ⟨⟨0, 0, 180, 0⟩, ⟨180, 60, 255, 255⟩⟩

/-- The all-zero normalized box the calibration starts from. -/
def zeroBox : NormalizedBox := ⟨0, 0, 0, 0⟩

/-- The all-zero spatial template used when no region is detected. -/
def zeroSpatial : Spatial := ⟨zeroBox, 0⟩

/-- The triad of color bounds the fixed-target-color calibration always
computes (dark and light from the hardcoded colors with tolerance
h=10, s=50, v=50; white from the special range). -/
def stdTriad : TriadBounds :=
  ⟨getHsvRange MENU_DARK ⟨10, 50, 50⟩, getHsvRange MENU_LIGHT ⟨10, 50, 50⟩, whiteRange⟩

/-- The largest-contour selection loop shared by both calibration
variants: fold over the contours keeping (maxArea, bestRect), updating
whenever `area > maxArea`, starting from maxArea = 0, bestRect = null. -/
def largestContour (cs : List Contour) : ℚ × Option Rect :=
  cs.foldl (fun acc c => if acc.1 < c.area then (c.area, some c.rect) else acc) (0, none)

/-- calibrateReference, fixed-target-color variant
(src/utils/visionDetection.ts lines 231-316).  Throws exactly when the
collaborator is unavailable; otherwise selects the largest contour of
the MENU_DARK mask and, when `bestRect && maxArea > 100`, records its
normalized bounding box and aspect ratio, else keeps the zero spatial
template and only logs a warning. -/
def calibrateReference (cvLoaded : Bool) (image : RefImage) : Except String VisionProfile :=
  if !cvLoaded then Except.error "OpenCV is not loaded yet."
  else
    let darkBounds := getHsvRange MENU_DARK ⟨10, 50, 50⟩
    let lightBounds := getHsvRange MENU_LIGHT ⟨10, 50, 50⟩
    let m := largestContour image.contours
    let spatial : Spatial :=
      match m.2 with
      | some bestRect =>
        if 100 < m.1 then
          ⟨⟨(bestRect.x : ℚ) / (image.cols : ℚ), (bestRect.y : ℚ) / (image.rows : ℚ),
            (bestRect.width : ℚ) / (image.cols : ℚ), (bestRect.height : ℚ) / (image.rows : ℚ)⟩,
           (bestRect.width : ℚ) / (bestRect.height : ℚ)⟩
        else zeroSpatial
      | none => zeroSpatial
    Except.ok ⟨⟨darkBounds, lightBounds, whiteRange⟩, spatial⟩

/-- Geometry record of the dominant-hue calibration variant
(src/utils/visionDetection.ts lines 324-329). -/
structure Geometry where
  aspectRatio : ℚ
  coverageRatio : ℚ
  width : ℚ
  height : ℚ
  deriving DecidableEq

/-- VisionProfile of the dominant-hue calibration variant
(src/utils/visionDetection.ts lines 319-330). -/
structure VisionProfileDom where
  hsvBounds : HSVRange
  geometry : Geometry
  deriving DecidableEq

/-- calibrateReference, dominant-hue variant
(src/utils/visionDetection.ts lines 338-453).  The dominant hue of the
central region of interest is a collaborator output (cv.mean of the hue
channel under the saturation mask) and is passed in as an oracle value.
Bounds are hue plus/minus 10 clamped to [0,180] with loose saturation
and value; geometry comes from the largest contour when
`bestRect && maxArea > 0`, else stays all zero with only a warning. -/
def calibrateReferenceDom (cvLoaded : Bool) (image : RefImage) (dominantHue : ℚ) :
    Except String VisionProfileDom :=
  if !cvLoaded then Except.error "OpenCV is not loaded yet. Please wait for initialization."
  else
    let hMin := max 0 (dominantHue - 10)
    let hMax := min 180 (dominantHue + 10)
    let lowerBound : HsvScalar := ⟨hMin, 50, 50, 0⟩
    let upperBound : HsvScalar := ⟨hMax, 255, 255, 255⟩
    let m := largestContour image.contours
    let geom : Geometry :=
      match m.2 with
      | some bestRect =>
        if 0 < m.1 then
          ⟨(bestRect.width : ℚ) / (bestRect.height : ℚ),
           m.1 / ((image.cols * image.rows : ℤ) : ℚ),
           (bestRect.width : ℚ), (bestRect.height : ℚ)⟩
        else ⟨0, 0, 0, 0⟩
      | none => ⟨0, 0, 0, 0⟩
    Except.ok ⟨⟨lowerBound, upperBound⟩, geom⟩

-- ===================================================================
-- Frame scanning
-- (src/unnamed/part_000 lines 15-196: IoU variant;
--  lines 209-341: per-axis deviation variant)
-- ===================================================================

/-- One candidate contour of a frame, as the collaborator reports it:
its bounding rectangle, the nonzero-pixel counts of the light-range and
white-range masks inside that rectangle (cv.countNonZero after
cv.inRange on the cropped region), and whether the region-of-interest
pipeline for this candidate fails (the error the inner catch of the
source handles). -/
structure Candidate where
  rect : Rect
  lightCount : ℕ
  whiteCount : ℕ
  roiFails : Bool
  deriving DecidableEq

/-- The collaborator-level view of one video frame: pixel dimensions,
whether the conversion/segmentation pipeline fails (the error the outer
catch of the source handles before any candidate is accepted), and the
candidate contours of the dark mask in extraction order. -/
structure Frame where
  cols : ℤ
  rows : ℤ
  convertFails : Bool
  candidates : List Candidate
  deriving DecidableEq

/-- calculateIoU of src/unnamed/part_000 lines 179-196. -/
def calculateIoU (rectA rectB : Rect) : ℚ :=
  let xA := max rectA.x rectB.x
  let yA := max rectA.y rectB.y
  let xB := min (rectA.x + rectA.width) (rectB.x + rectB.width)
  let yB := min (rectA.y + rectA.height) (rectB.y + rectB.height)
  let interW := max 0 (xB - xA)
  let interH := max 0 (yB - yA)
  if interW ≤ 0 ∨ interH ≤ 0 then 0
  else
    let interArea := interW * interH
    let areaA := rectA.width * rectA.height
    let areaB := rectB.width * rectB.height
    let unionArea := areaA + areaB - interArea
    if 0 < unionArea then (interArea : ℚ) / (unionArea : ℚ) else 0

/-- The projection of the normalized template onto the frame dimensions
(src/unnamed/part_000 lines 43-49, Math.floor of nb times frame size). -/
def expectedRect (p : VisionProfile) (fw fh : ℤ) : Rect :=
  ⟨⌊p.spatial.normalizedBox.x * (fw : ℚ)⌋,
   ⌊p.spatial.normalizedBox.y * (fh : ℚ)⌋,
   ⌊p.spatial.normalizedBox.w * (fw : ℚ)⌋,
   ⌊p.spatial.normalizedBox.h * (fh : ℚ)⌋⟩

/-- The spatial lock of the IoU variant: the source rejects a candidate
with `if (iou < 0.3) continue`, so acceptance is the negation. -/
def spatialPassIoU (r exp : Rect) : Bool := !decide (calculateIoU r exp < 3 / 10)

/-- Fraction of light-range pixels in a candidate region; the area is
rect.width * rect.height as in the source. -/
def lightRatio (c : Candidate) : ℚ :=
  (c.lightCount : ℚ) / ((c.rect.width * c.rect.height : ℤ) : ℚ)

/-- Fraction of white-range pixels in a candidate region. -/
def whiteRatio (c : Candidate) : ℚ :=
  (c.whiteCount : ℚ) / ((c.rect.width * c.rect.height : ℤ) : ℚ)

/-- The triad content check of both scanFrame variants:
`lightRatio > 0.01 && whiteRatio > 0.01`. -/
def triadPass (c : Candidate) : Bool :=
  decide (1 / 100 < lightRatio c) && decide (1 / 100 < whiteRatio c)

/-- The candidate loop of the IoU scanFrame variant
(src/unnamed/part_000 lines 80-151): reject on the spatial lock,
skip a candidate whose region pipeline errors (inner catch), accept and
stop at the first candidate passing the triad check, otherwise continue. -/
def scanLoopIoU (exp : Rect) : List Candidate → Bool
  | [] => false
  | c :: rest =>
    if spatialPassIoU c.rect exp then
      if c.roiFails then scanLoopIoU exp rest
      else if triadPass c then true
      else scanLoopIoU exp rest
    else scanLoopIoU exp rest

/-- A candidate passes when it survives the spatial lock, its region
pipeline does not error, and the triad check holds. -/
def candidatePasses (exp : Rect) (c : Candidate) : Bool :=
  spatialPassIoU c.rect exp && !c.roiFails && triadPass c

/-- scanFrame, IoU variant (src/unnamed/part_000 lines 15-174).
Returns `ok false` when the collaborator is unavailable (the source
`return false`), `ok false` when the conversion/segmentation pipeline
errors (the outer catch logs and falls through to `return detected`
with detected still false), and otherwise the verdict of the candidate
loop.  No input produces `error`. -/
def scanFrame (cvLoaded : Bool) (frame : Frame) (p : VisionProfile) : Except String Bool :=
  if !cvLoaded then Except.ok false
  else if frame.convertFails then Except.ok false
  else Except.ok (scanLoopIoU (expectedRect p frame.cols frame.rows) frame.candidates)

/-- The spatial lock of the deviation scanFrame variant
(src/unnamed/part_000 lines 252-267): normalize the candidate box by the
frame dimensions and reject when any of x, y, w, h deviates from the
template by more than 0.15. -/
def spatialPassDev (cols rows : ℤ) (nb : NormalizedBox) (r : Rect) : Bool :=
  !decide (3 / 20 < |(r.x : ℚ) / (cols : ℚ) - nb.x| ∨
           3 / 20 < |(r.y : ℚ) / (rows : ℚ) - nb.y| ∨
           3 / 20 < |(r.width : ℚ) / (cols : ℚ) - nb.w| ∨
           3 / 20 < |(r.height : ℚ) / (rows : ℚ) - nb.h|)

/-- The candidate loop of the deviation scanFrame variant
(src/unnamed/part_000 lines 248-318), same shape as the IoU loop with
the deviation spatial lock. -/
def scanLoopDev (cols rows : ℤ) (nb : NormalizedBox) : List Candidate → Bool
  | [] => false
  | c :: rest =>
    if spatialPassDev cols rows nb c.rect then
      if c.roiFails then scanLoopDev cols rows nb rest
      else if triadPass c then true
      else scanLoopDev cols rows nb rest
    else scanLoopDev cols rows nb rest

/-- scanFrame, deviation variant (src/unnamed/part_000 lines 209-341). -/
def scanFrameDev (cvLoaded : Bool) (frame : Frame) (p : VisionProfile) : Except String Bool :=
  if !cvLoaded then Except.ok false
  else if frame.convertFails then Except.ok false
  else Except.ok (scanLoopDev frame.cols frame.rows p.spatial.normalizedBox frame.candidates)

/-- The scan verdict of the detection contract.
Modelled from the spec: scanFrame in src returns only a boolean, and the
worker module that carries a confidence value alongside the verdict is
not under src; per the spec and the orchestrator of src/unnamed/part_001
(which emits confidence 1.0 for a match), the confidence is the fixed
value 1 when matched and 0 when not matched. -/
structure ScanVerdict where
  matched : Bool
  confidence : ℚ
  deriving DecidableEq

/-- The matched/confidence pair for one frame evaluation; matched is the
boolean scanFrame of the source computes (IoU variant), confidence is
the spec-level channel described on ScanVerdict. -/
def scanVerdict (cvLoaded : Bool) (frame : Frame) (p : VisionProfile) : ScanVerdict :=
  let m := match scanFrame cvLoaded frame p with
    | Except.ok b => b
    | Except.error _ => false
  ⟨m, if m then 1 else 0⟩

-- ===================================================================
-- Scan orchestration
-- (src/unnamed/part_001 lines 57-199, processVideo)
-- ===================================================================

inductive ScanStatus where
  | idle
  | initializing
  | calibrating
  | processing
  | completed
  | error
  deriving DecidableEq

structure DetectionEvent where
  timestamp : ℚ
  confidence : ℚ
  deriving DecidableEq

/-- The VisionState record the hook publishes through setState. -/
structure VisionState where
  isProcessing : Bool
  progress : ℤ
  status : ScanStatus
  detections : List DetectionEvent
  deriving DecidableEq

/-- The outcome of running the scan loop: the ordered list of state
updates it emits, the final session state (the last published state),
and whether the loop observed a cancellation request. -/
structure LoopResult where
  trace : List VisionState
  final : VisionState
  aborted : Bool
  deriving DecidableEq

/-- The code after the while loop: `if (!signal.aborted)` publish
completed with progress 100 and isProcessing false, else publish
nothing (the session is abandoned).  The read of the signal is the
abort oracle at index n. -/
def finishScan (ab : ℕ → Bool) (n : ℕ) (s : VisionState) : LoopResult :=
  if ab n then ⟨[], s, true⟩
  else
    let s1 : VisionState := ⟨false, 100, ScanStatus.completed, s.detections⟩
    ⟨[s1], s1, false⟩

/-- The scan loop of processVideo (src/unnamed/part_001 lines 134-191).
det is the frame-scan oracle (scanFrame at a timestamp), ab the abort
signal read at successive checkpoints (indexed by read count), duration
the video duration.  Each iteration: check abort before the seek, check
abort after the seek, scan the frame, on detection append
{timestamp, confidence 1} and publish the detections, publish
progress = min 100 (round (t / duration * 100)), advance t by the
0.5-second interval.  The fuel argument only bounds the iteration
count; runScanLoop supplies enough fuel for the guard t < duration to
fail before the fuel does. -/
def scanLoopGo (det : ℚ → Bool) (ab : ℕ → Bool) (duration : ℚ) :
    ℕ → ℚ → ℕ → List DetectionEvent → VisionState → LoopResult
  | 0, _, n, _, s => finishScan ab n s
  | fuel + 1, t, n, dets, s =>
    if t < duration then
      if ab n then finishScan ab (n + 1) s
      else if ab (n + 1) then finishScan ab (n + 2) s
      else if det t then
        let dets2 := dets ++ [⟨t, 1⟩]
        let s2 : VisionState := ⟨s.isProcessing, s.progress, s.status, dets2⟩
        let s3 : VisionState :=
          ⟨s2.isProcessing, min 100 (round (t / duration * 100)), s2.status, s2.detections⟩
        let rest := scanLoopGo det ab duration fuel (t + 1 / 2) (n + 2) dets2 s3
        ⟨s2 :: s3 :: rest.trace, rest.final, rest.aborted⟩
      else
        let s3 : VisionState :=
          ⟨s.isProcessing, min 100 (round (t / duration * 100)), s.status, s.detections⟩
        let rest := scanLoopGo det ab duration fuel (t + 1 / 2) (n + 2) dets s3
        ⟨s3 :: rest.trace, rest.final, rest.aborted⟩
    else finishScan ab n s

/-- The state at loop entry: isProcessing true, progress 0, status
processing, no detections (processVideo resets detections to [] and has
just published status processing). -/
def processingStart : VisionState := ⟨true, 0, ScanStatus.processing, []⟩

/-- Enough fuel for a loop that advances by one half per iteration to
exhaust the timeline. -/
def scanLoopFuel (duration : ℚ) : ℕ := (⌈2 * duration⌉).toNat + 1

/-- The whole scan loop of processVideo, from t = 0 with no detections. -/
def runScanLoop (det : ℚ → Bool) (ab : ℕ → Bool) (duration : ℚ) : LoopResult :=
  scanLoopGo det ab duration (scanLoopFuel duration) 0 0 [] processingStart

-- ===================================================================
-- Concrete sample inputs used by witnesses and counterexamples
-- ===================================================================

/-- A reference image in which the collaborator finds no contour at all
(no pixels in any derived color range). -/
def emptyRefImage : RefImage := ⟨640, 480, []⟩

/-- A reference image whose only contour has area 50, below the
minimum-area floor. -/
def smallRefImage : RefImage := ⟨100, 100, [⟨50, ⟨1, 1, 5, 5⟩⟩]⟩

/-- A frame with no candidates and a healthy pipeline. -/
def emptyFrame : Frame := ⟨640, 480, false, []⟩

/-- A frame on which the conversion/segmentation pipeline errors. -/
def badFrame : Frame := ⟨640, 480, true, []⟩

/-- The profile the fixed-target-color calibration returns when no
region is detected. -/
def fallbackProfile : VisionProfile := ⟨stdTriad, zeroSpatial⟩

-- ===================================================================
-- Lemmas about the color range model
-- ===================================================================

lemma jsRem_of_abs_le (x : ℚ) (hx : |x| ≤ 1) : jsRem x 6 = x := by
  obtain ⟨hl, hr⟩ := abs_le.mp hx
  have h0 : jsTrunc (x / 6) = 0 := by
    unfold jsTrunc
    split_ifs with h
    · rw [Int.floor_eq_zero_iff]
      constructor
      · exact h
      · show x / 6 < 1
        linarith
    · have hx6 : x / 6 < 0 := lt_of_not_le h
      have : (0 : ℤ) = ⌊-(x / 6)⌋ := by
        rw [eq_comm, Int.floor_eq_zero_iff]
        constructor
        · linarith
        · show -(x / 6) < 1
          linarith
      omega
  unfold jsRem
  rw [h0]
  push_cast
  ring

lemma hsvHueRaw_bounds (r g b : ℚ) : -60 ≤ hsvHueRaw r g b ∧ hsvHueRaw r g b ≤ 300 := by
  have hmn_g : min r (min g b) ≤ g := le_trans (min_le_right _ _) (min_le_left _ _)
  have hmn_b : min r (min g b) ≤ b := le_trans (min_le_right _ _) (min_le_right _ _)
  have hmn_r : min r (min g b) ≤ r := min_le_left _ _
  have hmx_g : g ≤ max r (max g b) := le_trans (le_max_left _ _) (le_max_right _ _)
  have hmx_b : b ≤ max r (max g b) := le_trans (le_max_right _ _) (le_max_right _ _)
  have hmx_r : r ≤ max r (max g b) := le_max_left _ _
  have hd0 : 0 ≤ max r (max g b) - min r (min g b) := by linarith
  unfold hsvHueRaw
  split_ifs with h1 h2 h3
  · norm_num
  · have hdpos : 0 < max r (max g b) - min r (min g b) := lt_of_le_of_ne hd0 (Ne.symm h1)
    have hup : (g - b) / (max r (max g b) - min r (min g b)) ≤ 1 := by
      rw [div_le_one hdpos]; linarith
    have hlo : -1 ≤ (g - b) / (max r (max g b) - min r (min g b)) := by
      rw [le_div_iff hdpos]; linarith
    rw [jsRem_of_abs_le _ (abs_le.mpr ⟨hlo, hup⟩)]
    constructor <;> linarith
  · have hdpos : 0 < max r (max g b) - min r (min g b) := lt_of_le_of_ne hd0 (Ne.symm h1)
    have hup : (b - r) / (max r (max g b) - min r (min g b)) ≤ 1 := by
      rw [div_le_one hdpos]; linarith
    have hlo : -1 ≤ (b - r) / (max r (max g b) - min r (min g b)) := by
      rw [le_div_iff hdpos]; linarith
    constructor <;> linarith
  · have hdpos : 0 < max r (max g b) - min r (min g b) := lt_of_le_of_ne hd0 (Ne.symm h1)
    have hup : (r - g) / (max r (max g b) - min r (min g b)) ≤ 1 := by
      rw [div_le_one hdpos]; linarith
    have hlo : -1 ≤ (r - g) / (max r (max g b) - min r (min g b)) := by
      rw [le_div_iff hdpos]; linarith
    constructor <;> linarith

lemma hsvHue_bounds (r g b : ℚ) : 0 ≤ hsvHue r g b ∧ hsvHue r g b ≤ 360 := by
  obtain ⟨h1, h2⟩ := hsvHueRaw_bounds r g b
  unfold hsvHue
  split_ifs with h
  · constructor <;> linarith
  · push_neg at h
    constructor <;> linarith

lemma hsvSat_bounds (r g b : ℚ) (hr : 0 ≤ r) (hg : 0 ≤ g) (hb : 0 ≤ b) :
    0 ≤ hsvSat r g b ∧ hsvSat r g b ≤ 1 := by
  have hmn : 0 ≤ min r (min g b) := le_min hr (le_min hg hb)
  have hle : min r (min g b) ≤ max r (max g b) :=
    le_trans (min_le_left _ _) (le_max_left _ _)
  unfold hsvSat
  split_ifs with h
  · norm_num
  · have hmx : 0 < max r (max g b) := lt_of_le_of_ne (le_trans hmn hle) (Ne.symm h)
    constructor
    · exact div_nonneg (by linarith) hmx.le
    · rw [div_le_one hmx]; linarith

lemma hsvVal_bounds (r g b : ℚ) (hr0 : 0 ≤ r) (hr1 : r ≤ 1) (hg0 : 0 ≤ g) (hg1 : g ≤ 1)
    (hb0 : 0 ≤ b) (hb1 : b ≤ 1) : 0 ≤ hsvVal r g b ∧ hsvVal r g b ≤ 1 := by
  unfold hsvVal
  constructor
  · exact le_trans hr0 (le_max_left _ _)
  · exact max_le hr1 (max_le hg1 hb1)

lemma cvHue_mem (rgb : RGB) : 0 ≤ cvHue rgb ∧ cvHue rgb ≤ 180 := by
  obtain ⟨h1, h2⟩ := hsvHue_bounds (rgb.r / 255) (rgb.g / 255) (rgb.b / 255)
  unfold cvHue
  constructor <;> linarith

lemma cvSat_mem (rgb : RGB) (hr : 0 ≤ rgb.r) (hg : 0 ≤ rgb.g) (hb : 0 ≤ rgb.b) :
    0 ≤ cvSat rgb ∧ cvSat rgb ≤ 255 := by
  obtain ⟨h1, h2⟩ := hsvSat_bounds (rgb.r / 255) (rgb.g / 255) (rgb.b / 255)
    (by positivity) (by positivity) (by positivity)
  unfold cvSat
  constructor <;> linarith

lemma cvVal_mem (rgb : RGB) (hr0 : 0 ≤ rgb.r) (hr1 : rgb.r ≤ 255) (hg0 : 0 ≤ rgb.g)
    (hg1 : rgb.g ≤ 255) (hb0 : 0 ≤ rgb.b) (hb1 : rgb.b ≤ 255) :
    0 ≤ cvVal rgb ∧ cvVal rgb ≤ 255 := by
  obtain ⟨h1, h2⟩ := hsvVal_bounds (rgb.r / 255) (rgb.g / 255) (rgb.b / 255)
    (by positivity) (by linarith) (by positivity) (by linarith) (by positivity) (by linarith)
  unfold cvVal
  constructor <;> linarith

/-- Expanding a channel value lying in [0, hi] by a nonnegative
tolerance and clamping gives a well-ordered pair inside [0, hi]. -/
lemma clamp_channel (x t hi : ℚ) (hx0 : 0 ≤ x) (hx1 : x ≤ hi) (ht : 0 ≤ t) :
    0 ≤ max 0 (x - t) ∧ max 0 (x - t) ≤ min hi (x + t) ∧ min hi (x + t) ≤ hi :=
  ⟨le_max_left _ _,
   max_le (le_min (by linarith) (by linarith)) (le_min (by linarith) (by linarith)),
   min_le_left _ _⟩

/-- C6: For every RGB sample (each channel in [0,255]) and every
nonnegative per-channel tolerance, the color range produced by
getHsvRange satisfies lower ≤ upper on each channel after tolerance
expansion and clamping, with the hue bounds clamped into [0,180] and
the saturation and value bounds clamped into [0,255]. -/
theorem getHsvRange_valid (rgb : RGB) (tol : HsvTol)
    (hr0 : 0 ≤ rgb.r) (hr1 : rgb.r ≤ 255) (hg0 : 0 ≤ rgb.g) (hg1 : rgb.g ≤ 255)
    (hb0 : 0 ≤ rgb.b) (hb1 : rgb.b ≤ 255)
    (hth : 0 ≤ tol.h) (hts : 0 ≤ tol.s) (htv : 0 ≤ tol.v) :
    (0 ≤ (getHsvRange rgb tol).lower.h ∧
     (getHsvRange rgb tol).lower.h ≤ (getHsvRange rgb tol).upper.h ∧
     (getHsvRange rgb tol).upper.h ≤ 180) ∧
    (0 ≤ (getHsvRange rgb tol).lower.s ∧
     (getHsvRange rgb tol).lower.s ≤ (getHsvRange rgb tol).upper.s ∧
     (getHsvRange rgb tol).upper.s ≤ 255) ∧
    (0 ≤ (getHsvRange rgb tol).lower.v ∧
     (getHsvRange rgb tol).lower.v ≤ (getHsvRange rgb tol).upper.v ∧
     (getHsvRange rgb tol).upper.v ≤ 255) := by
  obtain ⟨hh0, hh1⟩ := cvHue_mem rgb
  obtain ⟨hs0, hs1⟩ := cvSat_mem rgb hr0 hg0 hb0
  obtain ⟨hv0, hv1⟩ := cvVal_mem rgb hr0 hr1 hg0 hg1 hb0 hb1
  exact ⟨clamp_channel (cvHue rgb) tol.h 180 hh0 hh1 hth,
         clamp_channel (cvSat rgb) tol.s 255 hs0 hs1 hts,
         clamp_channel (cvVal rgb) tol.v 255 hv0 hv1 htv⟩

/-- Witness for C6 at the hardcoded MENU_DARK sample and the source
tolerance h=10, s=50, v=50. -/
theorem getHsvRange_valid_witness :
    (0 ≤ (getHsvRange MENU_DARK ⟨10, 50, 50⟩).lower.h ∧
     (getHsvRange MENU_DARK ⟨10, 50, 50⟩).lower.h ≤ (getHsvRange MENU_DARK ⟨10, 50, 50⟩).upper.h ∧
     (getHsvRange MENU_DARK ⟨10, 50, 50⟩).upper.h ≤ 180) ∧
    (0 ≤ (getHsvRange MENU_DARK ⟨10, 50, 50⟩).lower.s ∧
     (getHsvRange MENU_DARK ⟨10, 50, 50⟩).lower.s ≤ (getHsvRange MENU_DARK ⟨10, 50, 50⟩).upper.s ∧
     (getHsvRange MENU_DARK ⟨10, 50, 50⟩).upper.s ≤ 255) ∧
    (0 ≤ (getHsvRange MENU_DARK ⟨10, 50, 50⟩).lower.v ∧
     (getHsvRange MENU_DARK ⟨10, 50, 50⟩).lower.v ≤ (getHsvRange MENU_DARK ⟨10, 50, 50⟩).upper.v ∧
     (getHsvRange MENU_DARK ⟨10, 50, 50⟩).upper.v ≤ 255) :=
  getHsvRange_valid MENU_DARK ⟨10, 50, 50⟩ (by norm_num [MENU_DARK]) (by norm_num [MENU_DARK])
    (by norm_num [MENU_DARK]) (by norm_num [MENU_DARK]) (by norm_num [MENU_DARK])
    (by norm_num [MENU_DARK]) (by norm_num) (by norm_num) (by norm_num)

-- ===================================================================
-- Lemmas about calibration
-- ===================================================================

lemma largestContour_fold_le (bound : ℚ) :
    ∀ (cs : List Contour) (acc : ℚ × Option Rect), acc.1 ≤ bound →
      (∀ c ∈ cs, c.area ≤ bound) →
      (cs.foldl (fun acc c => if acc.1 < c.area then (c.area, some c.rect) else acc) acc).1
        ≤ bound := by
  intro cs
  induction cs with
  | nil => intro acc hacc _; simpa using hacc
  | cons c rest ih =>
    intro acc hacc hcs
    simp only [List.foldl_cons]
    apply ih
    · split_ifs with h
      · exact hcs c (List.mem_cons_self c rest)
      · exact hacc
    · intro d hd
      exact hcs d (List.mem_cons_of_mem c hd)

lemma largestContour_le (cs : List Contour) (bound : ℚ) (hb : 0 ≤ bound)
    (h : ∀ c ∈ cs, c.area ≤ bound) : (largestContour cs).1 ≤ bound :=
  largestContour_fold_le bound cs (0, none) hb h

lemma largestContour_nonpos (cs : List Contour) (h : ∀ c ∈ cs, c.area ≤ 0) :
    largestContour cs = (0, none) := by
  unfold largestContour
  induction cs with
  | nil => rfl
  | cons c rest ih =>
    simp only [List.foldl_cons]
    have hc : ¬ ((0 : ℚ) < c.area) := not_lt.mpr (h c (List.mem_cons_self c rest))
    rw [if_neg hc]
    exact ih (fun d hd => h d (List.mem_cons_of_mem c hd))

/-- Counterexample to C1: on a reference image in which no matching
region at all is found (no contour, hence certainly none of minimum
area), calibrateReference with the collaborator available does not fail
with a CalibrationError: it returns a profile (with the zero spatial
template), so the run succeeds. -/
theorem calibrateReference_empty_no_error :
    calibrateReference true emptyRefImage = Except.ok fallbackProfile := rfl

/-- When every contour area is at most 100, the fixed-color calibration
keeps the zero spatial template and succeeds. -/
lemma calibrateReference_spatial_zero (image : RefImage)
    (h : ∀ c ∈ image.contours, c.area ≤ 100) :
    calibrateReference true image = Except.ok fallbackProfile := by
  have hle : (largestContour image.contours).1 ≤ 100 :=
    largestContour_le image.contours 100 (by norm_num) h
  unfold calibrateReference fallbackProfile stdTriad
  rcases hm : largestContour image.contours with ⟨ma, orect⟩
  rw [hm] at hle
  simp only [Bool.not_true, Bool.false_eq_true, if_false, ite_false]
  cases orect with
  | none => rfl
  | some bestRect =>
    simp only
    rw [if_neg (not_lt.mpr hle)]

/-- C1 (amended): for every reference image in which no matching region
of area above the 100 px² floor is found — in particular any image with
no contours at all — calibrateReference with the collaborator available
does not fail: it returns a profile whose spatial template is all
zeros.  (The only failure of calibrateReference is the unavailability
of the collaborator.) -/
theorem calibrateReference_no_region_ok (image : RefImage)
    (h : ∀ c ∈ image.contours, c.area ≤ 100) :
    calibrateReference true image = Except.ok fallbackProfile :=
  calibrateReference_spatial_zero image h

/-- Witness for C1 (amended) at a reference image whose only contour
has area 50, below the floor. -/
theorem calibrateReference_no_region_witness :
    calibrateReference true smallRefImage = Except.ok fallbackProfile :=
  calibrateReference_no_region_ok smallRefImage (by
    intro c hc
    simp only [smallRefImage, List.mem_singleton] at hc
    rw [hc]
    norm_num)

/-- C10: when the image-processing collaborator is available but no
contour of sufficient area is found in the reference image, both
calibrateReference variants return normally (they do not throw): the
fixed-color variant returns a profile with normalized box
x = y = w = h = 0 and aspect ratio 0, the dominant-hue one a profile
with aspect ratio, coverage ratio, width and height all 0; and the
downstream scanFrame projects that zero spatial template to the
all-zero expected rectangle on any frame dimensions. -/
theorem calibrate_no_region_zero_geometry (imageA imageB : RefImage) (hue : ℚ) (fw fh : ℤ)
    (hA : ∀ c ∈ imageA.contours, c.area ≤ 100)
    (hB : ∀ c ∈ imageB.contours, c.area ≤ 0) :
    calibrateReference true imageA =
      Except.ok ⟨stdTriad, ⟨⟨0, 0, 0, 0⟩, 0⟩⟩ ∧
    expectedRect ⟨stdTriad, ⟨⟨0, 0, 0, 0⟩, 0⟩⟩ fw fh = ⟨0, 0, 0, 0⟩ ∧
    calibrateReferenceDom true imageB hue =
      Except.ok ⟨⟨⟨max 0 (hue - 10), 50, 50, 0⟩, ⟨min 180 (hue + 10), 255, 255, 255⟩⟩,
                 ⟨0, 0, 0, 0⟩⟩ := by
  refine ⟨?_, ?_, ?_⟩
  · have := calibrateReference_spatial_zero imageA hA
    rw [this]
    rfl
  · simp [expectedRect]
  · unfold calibrateReferenceDom
    rw [largestContour_nonpos imageB.contours hB]
    rfl

/-- Witness for C10 at an empty and a small-area reference image, a
dominant hue of 140 and a 640 by 480 frame. -/
theorem calibrate_no_region_zero_geometry_witness :
    calibrateReference true smallRefImage =
      Except.ok ⟨stdTriad, ⟨⟨0, 0, 0, 0⟩, 0⟩⟩ ∧
    expectedRect ⟨stdTriad, ⟨⟨0, 0, 0, 0⟩, 0⟩⟩ 640 480 = ⟨0, 0, 0, 0⟩ ∧
    calibrateReferenceDom true emptyRefImage 140 =
      Except.ok ⟨⟨⟨max 0 (140 - 10), 50, 50, 0⟩, ⟨min 180 (140 + 10), 255, 255, 255⟩⟩,
                 ⟨0, 0, 0, 0⟩⟩ :=
  calibrate_no_region_zero_geometry smallRefImage emptyRefImage 140 640 480
    (by
      intro c hc
      simp only [smallRefImage, List.mem_singleton] at hc
      rw [hc]
      norm_num)
    (by
      intro c hc
      simp [emptyRefImage] at hc)

-- ===================================================================
-- Lemmas about frame scanning
-- ===================================================================

/-- The candidate loop of the IoU variant computes exactly the first
candidate, in extraction order, that passes the spatial lock, has a
healthy region pipeline, and passes the triad check. -/
lemma scanLoopIoU_eq_find (exp : Rect) :
    ∀ cs : List Candidate, scanLoopIoU exp cs = (cs.find? (candidatePasses exp)).isSome := by
  intro cs
  induction cs with
  | nil => simp [scanLoopIoU]
  | cons c rest ih =>
    rw [scanLoopIoU]
    rcases hsp : spatialPassIoU c.rect exp with _ | _
    · have hp : candidatePasses exp c = false := by
        simp [candidatePasses, hsp]
      simp [hp, List.find?, ih]
    · rcases hroi : c.roiFails with _ | _
      · rcases htri : triadPass c with _ | _
        · have hp : candidatePasses exp c = false := by
            simp [candidatePasses, hsp, hroi, htri]
          simp [hp, List.find?, ih, hroi, htri]
        · have hp : candidatePasses exp c = true := by
            simp [candidatePasses, hsp, hroi, htri]
          simp [hp, List.find?, hroi, htri]
      · have hp : candidatePasses exp c = false := by
          simp [candidatePasses, hroi]
        simp [hp, List.find?, ih, hroi]

/-- C2 (amended): scanFrame never raises.  On every input it returns an
ordinary verdict; a malformed frame (a conversion/segmentation error,
caught and logged by the source) yields matched = false, and an
unavailable image-processing collaborator likewise yields
matched = false rather than a failure reported to the caller. -/
theorem scanFrame_never_raises (cvLoaded : Bool) (frame : Frame) (p : VisionProfile) :
    (∃ b, scanFrame cvLoaded frame p = Except.ok b) ∧
    (cvLoaded = false → scanFrame cvLoaded frame p = Except.ok false) ∧
    (frame.convertFails = true → scanFrame cvLoaded frame p = Except.ok false) := by
  unfold scanFrame
  refine ⟨?_, ?_, ?_⟩
  · split_ifs <;> exact ⟨_, rfl⟩
  · intro h
    rw [h]
    rfl
  · intro h
    simp [h]

/-- Witness for C2 (amended): a healthy frame gets some verdict, and a
frame whose pipeline errors gets the verdict false. -/
theorem scanFrame_never_raises_witness :
    (∃ b, scanFrame true emptyFrame fallbackProfile = Except.ok b) ∧
    scanFrame true badFrame fallbackProfile = Except.ok false :=
  ⟨(scanFrame_never_raises true emptyFrame fallbackProfile).1,
   (scanFrame_never_raises true badFrame fallbackProfile).2.2 rfl⟩

/-- Counterexample to C2 as stated: when the image-processing
collaborator is unavailable, scanFrame does not report a hard
precondition failure to the caller — it returns the ordinary false
verdict. -/
theorem scanFrame_cv_missing_false_verdict :
    scanFrame false emptyFrame fallbackProfile = Except.ok false := rfl

/-- C3: scanFrame returns matched = true exactly when some candidate,
taken in the order the extraction step yields them, passes both the
spatial filter and the content verification; the first such candidate
wins (List.find? takes the first match), and when no candidate passes
the verdict is matched = false with confidence 0. -/
theorem scanFrame_first_match (frame : Frame) (p : VisionProfile)
    (hconv : frame.convertFails = false) :
    ((scanVerdict true frame p).matched =
      (frame.candidates.find? (candidatePasses (expectedRect p frame.cols frame.rows))).isSome) ∧
    (frame.candidates.find? (candidatePasses (expectedRect p frame.cols frame.rows)) = none →
      scanVerdict true frame p = ⟨false, 0⟩) := by
  have hm : scanVerdict true frame p =
      ⟨scanLoopIoU (expectedRect p frame.cols frame.rows) frame.candidates,
       if scanLoopIoU (expectedRect p frame.cols frame.rows) frame.candidates then 1 else 0⟩ := by
    unfold scanVerdict scanFrame
    rw [hconv]
    rfl
  constructor
  · rw [hm]
    exact scanLoopIoU_eq_find _ frame.candidates
  · intro hnone
    rw [hm]
    have : scanLoopIoU (expectedRect p frame.cols frame.rows) frame.candidates = false := by
      rw [scanLoopIoU_eq_find, hnone]
      rfl
    rw [this]
    rfl

/-- Witness for C3 at a frame without candidates. -/
theorem scanFrame_first_match_witness :
    ((scanVerdict true emptyFrame fallbackProfile).matched =
      (emptyFrame.candidates.find?
        (candidatePasses (expectedRect fallbackProfile emptyFrame.cols emptyFrame.rows))).isSome) ∧
    (emptyFrame.candidates.find?
        (candidatePasses (expectedRect fallbackProfile emptyFrame.cols emptyFrame.rows)) = none →
      scanVerdict true emptyFrame fallbackProfile = ⟨false, 0⟩) :=
  scanFrame_first_match emptyFrame fallbackProfile rfl

/-- C4: for a spatially accepted candidate with a healthy region
pipeline, the triad content check accepts exactly when the fraction of
pixels matching each of the additional named color ranges of the
profile — the light range and the white range — strictly exceeds the
1% density floor; and when the check fails the loop continues with the
remaining candidates. -/
theorem triad_check_exact (c : Candidate) (exp : Rect) (rest : List Candidate)
    (hsp : spatialPassIoU c.rect exp = true) (hroi : c.roiFails = false) :
    (triadPass c = true ↔ ∀ q ∈ [lightRatio c, whiteRatio c], 1 / 100 < q) ∧
    (triadPass c = false → scanLoopIoU exp (c :: rest) = scanLoopIoU exp rest) := by
  constructor
  · simp only [triadPass, Bool.and_eq_true, decide_eq_true_eq, List.mem_cons,
      List.mem_singleton, List.not_mem_nil, or_false]
    constructor
    · rintro ⟨h1, h2⟩ q (rfl | rfl)
      · exact h1
      · exact h2
    · intro h
      exact ⟨h _ (Or.inl rfl), h _ (Or.inr rfl)⟩
  · intro htri
    rw [scanLoopIoU, hsp, hroi, htri]
    simp

/-- Witness for C4: a candidate exactly covering the expected rectangle
(spatially accepted) with zero light and white pixels fails the triad
check, and the loop proceeds past it. -/
theorem triad_check_exact_witness :
    (triadPass ⟨⟨0, 0, 10, 10⟩, 0, 0, false⟩ = true ↔
      ∀ q ∈ [lightRatio ⟨⟨0, 0, 10, 10⟩, 0, 0, false⟩,
             whiteRatio ⟨⟨0, 0, 10, 10⟩, 0, 0, false⟩], 1 / 100 < q) ∧
    (triadPass ⟨⟨0, 0, 10, 10⟩, 0, 0, false⟩ = false →
      scanLoopIoU ⟨0, 0, 10, 10⟩ [⟨⟨0, 0, 10, 10⟩, 0, 0, false⟩] =
        scanLoopIoU ⟨0, 0, 10, 10⟩ []) :=
  triad_check_exact ⟨⟨0, 0, 10, 10⟩, 0, 0, false⟩ ⟨0, 0, 10, 10⟩ []
    (by norm_num [spatialPassIoU, calculateIoU]) rfl

/-- C5: the spatial filter treats its threshold boundary inclusively.
Under the overlap policy a candidate is accepted exactly when its
Intersection-over-Union with the projected template is at least 3/10 —
in particular a candidate at exactly 3/10 is accepted and rejection
happens only strictly below 3/10 — and under the deviation policy a
candidate is accepted exactly when every per-axis normalized deviation
is at most 3/20, so exact deviation 3/20 on every axis is accepted and
rejection happens only when some axis deviates strictly more. -/
theorem spatial_boundary_inclusive (r exp : Rect) (cols rows : ℤ) (nb : NormalizedBox) :
    (spatialPassIoU r exp = true ↔ 3 / 10 ≤ calculateIoU r exp) ∧
    (calculateIoU r exp = 3 / 10 → spatialPassIoU r exp = true) ∧
    (spatialPassDev cols rows nb r = true ↔
      (|(r.x : ℚ) / (cols : ℚ) - nb.x| ≤ 3 / 20 ∧
       |(r.y : ℚ) / (rows : ℚ) - nb.y| ≤ 3 / 20 ∧
       |(r.width : ℚ) / (cols : ℚ) - nb.w| ≤ 3 / 20 ∧
       |(r.height : ℚ) / (rows : ℚ) - nb.h| ≤ 3 / 20)) := by
  refine ⟨?_, ?_, ?_⟩
  · simp [spatialPassIoU, not_lt]
  · intro h
    simp [spatialPassIoU, h]
  · simp [spatialPassDev, not_or, not_lt]

/-- Witness for C5: the rectangles (0,0,30,10) and (0,0,100,10) have
Intersection-over-Union exactly 3/10 and the candidate is accepted, and
a candidate at exact deviation 3/20 on every axis is accepted. -/
theorem spatial_boundary_inclusive_witness :
    spatialPassIoU ⟨0, 0, 30, 10⟩ ⟨0, 0, 100, 10⟩ = true ∧
    spatialPassDev 100 100 ⟨1/5, 1/5, 7/20, 7/20⟩ ⟨35, 35, 50, 50⟩ = true :=
  ⟨(spatial_boundary_inclusive ⟨0, 0, 30, 10⟩ ⟨0, 0, 100, 10⟩ 100 100
      ⟨1/5, 1/5, 7/20, 7/20⟩).2.1 (by norm_num [calculateIoU]),
   (spatial_boundary_inclusive ⟨35, 35, 50, 50⟩ ⟨0, 0, 100, 10⟩ 100 100
      ⟨1/5, 1/5, 7/20, 7/20⟩).2.2.mpr (by norm_num [abs_le])⟩

-- ===================================================================
-- Lemmas about the scan loop
-- ===================================================================

/-- With no cancellation request, every run of the loop body ends in
the completed state with progress 100. -/
lemma scanLoopGo_complete (det : ℚ → Bool) (ab : ℕ → Bool) (duration : ℚ)
    (hab : ∀ n, ab n = false) :
    ∀ fuel t n dets s,
      (scanLoopGo det ab duration fuel t n dets s).final.status = ScanStatus.completed ∧
      (scanLoopGo det ab duration fuel t n dets s).final.progress = 100 := by
  intro fuel
  induction fuel with
  | zero =>
    intro t n dets s
    simp [scanLoopGo, finishScan, hab]
  | succ f ih =>
    intro t n dets s
    rw [scanLoopGo]
    split_ifs with h1 h2 h3 h4
    · simp [finishScan, hab]
    · simp [finishScan, hab]
    · exact ih _ _ _ _
    · exact ih _ _ _ _
    · simp [finishScan, hab]

/-- When the detector never fires, the loop leaves the detection list
of the state untouched. -/
lemma scanLoopGo_no_det (det : ℚ → Bool) (ab : ℕ → Bool) (duration : ℚ)
    (hdet : ∀ t, det t = false) :
    ∀ fuel t n dets s,
      (scanLoopGo det ab duration fuel t n dets s).final.detections = s.detections := by
  intro fuel
  induction fuel with
  | zero =>
    intro t n dets s
    unfold scanLoopGo finishScan
    split_ifs <;> rfl
  | succ f ih =>
    intro t n dets s
    rw [scanLoopGo]
    split_ifs with h1 h2 h3 h4
    · unfold finishScan; split_ifs <;> rfl
    · unfold finishScan; split_ifs <;> rfl
    · rw [hdet t] at h4
      exact absurd h4 (by simp)
    · exact ih _ _ _ _
    · unfold finishScan; split_ifs <;> rfl

/-- Both exits of the post-loop gate preserve every already-published
detection list as a prefix of the final one. -/
lemma finishScan_prefix (ab : ℕ → Bool) (n : ℕ) (s : VisionState) :
    ∀ x ∈ s :: (finishScan ab n s).trace,
      x.detections <+: (finishScan ab n s).final.detections := by
  intro x hx
  simp only [finishScan] at hx ⊢
  split_ifs at hx ⊢ with h
  · simp only [List.mem_cons, List.not_mem_nil, or_false] at hx
    subst hx
    exact List.prefix_refl _
  · simp only [List.mem_cons, List.not_mem_nil, or_false] at hx
    rcases hx with rfl | rfl
    · exact List.prefix_refl _
    · exact List.prefix_refl _

/-- Every state the loop has published (and the entry state) carries a
detection list that is a prefix of the final detection list: events are
only appended, never mutated or removed. -/
lemma scanLoopGo_prefix (det : ℚ → Bool) (ab : ℕ → Bool) (duration : ℚ) :
    ∀ fuel t n dets s, s.detections = dets →
      ∀ x ∈ s :: (scanLoopGo det ab duration fuel t n dets s).trace,
        x.detections <+: (scanLoopGo det ab duration fuel t n dets s).final.detections := by
  intro fuel
  induction fuel with
  | zero =>
    intro t n dets s hs
    rw [scanLoopGo]
    exact finishScan_prefix ab n s
  | succ f ih =>
    intro t n dets s hs x hx
    subst hs
    rw [scanLoopGo] at hx ⊢
    split_ifs at hx ⊢ with h1 h2 h3 h4
    · exact finishScan_prefix ab (n + 1) s x hx
    · exact finishScan_prefix ab (n + 2) s x hx
    · -- detection branch: published s2 and s3 both carry dets ++ [⟨t, 1⟩]
      simp only [List.mem_cons] at hx
      have hrec := ih (t + 1 / 2) (n + 2) (s.detections ++ [⟨t, 1⟩])
        ⟨s.isProcessing, min 100 (round (t / duration * 100)), s.status,
         s.detections ++ [⟨t, 1⟩]⟩ rfl
      rcases hx with hxe | hxe | hxe | hx
      · rw [hxe]
        exact List.IsPrefix.trans (List.prefix_append s.detections _)
          (hrec ⟨s.isProcessing, min 100 (round (t / duration * 100)), s.status,
            s.detections ++ [⟨t, 1⟩]⟩ (List.mem_cons_self _ _))
      · rw [hxe]
        exact hrec ⟨s.isProcessing, min 100 (round (t / duration * 100)), s.status,
          s.detections ++ [⟨t, 1⟩]⟩ (List.mem_cons_self _ _)
      · rw [hxe]
        exact hrec ⟨s.isProcessing, min 100 (round (t / duration * 100)), s.status,
          s.detections ++ [⟨t, 1⟩]⟩ (List.mem_cons_self _ _)
      · exact hrec _ (List.mem_cons_of_mem _ hx)
    · -- no detection: published s3 carries the unchanged detections
      simp only [List.mem_cons] at hx
      have hrec := ih (t + 1 / 2) (n + 2) s.detections
        ⟨s.isProcessing, min 100 (round (t / duration * 100)), s.status, s.detections⟩ rfl
      rcases hx with hxe | hxe | hx
      · rw [hxe]
        exact hrec ⟨s.isProcessing, min 100 (round (t / duration * 100)), s.status,
          s.detections⟩ (List.mem_cons_self _ _)
      · rw [hxe]
        exact hrec ⟨s.isProcessing, min 100 (round (t / duration * 100)), s.status,
          s.detections⟩ (List.mem_cons_self _ _)
      · exact hrec _ (List.mem_cons_of_mem _ hx)
    · exact finishScan_prefix ab n s x hx

/-- If the accumulated events are strictly increasing in timestamp and
all lie strictly before the current cursor, the final detection list is
strictly increasing in timestamp. -/
lemma scanLoopGo_sorted (det : ℚ → Bool) (ab : ℕ → Bool) (duration : ℚ) :
    ∀ fuel t n dets s, s.detections = dets →
      (∀ e ∈ dets, e.timestamp < t) →
      List.Pairwise (fun a b : DetectionEvent => a.timestamp < b.timestamp) dets →
      List.Pairwise (fun a b : DetectionEvent => a.timestamp < b.timestamp)
        (scanLoopGo det ab duration fuel t n dets s).final.detections := by
  intro fuel
  induction fuel with
  | zero =>
    intro t n dets s hs hbefore hsorted
    subst hs
    rw [scanLoopGo]
    unfold finishScan
    split_ifs <;> exact hsorted
  | succ f ih =>
    intro t n dets s hs hbefore hsorted
    subst hs
    rw [scanLoopGo]
    split_ifs with h1 h2 h3 h4
    · unfold finishScan; split_ifs <;> exact hsorted
    · unfold finishScan; split_ifs <;> exact hsorted
    · -- detection branch: append the event at the cursor
      have hb2 : ∀ e ∈ s.detections ++ [({ timestamp := t, confidence := 1 } : DetectionEvent)],
          e.timestamp < t + 1 / 2 := by
        intro e he
        rcases List.mem_append.mp he with he1 | he2
        · have := hbefore e he1
          linarith
        · simp only [List.mem_singleton] at he2
          rw [he2]
          show t < t + 1 / 2
          linarith
      have hp2 : List.Pairwise (fun a b : DetectionEvent => a.timestamp < b.timestamp)
          (s.detections ++ [{ timestamp := t, confidence := 1 }]) := by
        rw [List.pairwise_append]
        refine ⟨hsorted, List.pairwise_singleton _ _, ?_⟩
        intro a ha b hb
        simp only [List.mem_singleton] at hb
        rw [hb]
        exact hbefore a ha
      exact ih (t + 1 / 2) (n + 2) (s.detections ++ [⟨t, 1⟩])
        ⟨s.isProcessing, min 100 (round (t / duration * 100)), s.status,
         s.detections ++ [⟨t, 1⟩]⟩ rfl hb2 hp2
    · -- no detection: cursor advances, bound weakens
      have hb2 : ∀ e ∈ s.detections, e.timestamp < t + 1 / 2 := by
        intro e he
        have := hbefore e he
        linarith
      exact ih (t + 1 / 2) (n + 2) s.detections
        ⟨s.isProcessing, min 100 (round (t / duration * 100)), s.status, s.detections⟩
        rfl hb2 hsorted
    · unfold finishScan; split_ifs <;> exact hsorted

/-- The post-loop gate, when it observes the cancellation, publishes
nothing, keeps the entry state, and keeps its status. -/
lemma finishScan_abort (ab : ℕ → Bool) (n : ℕ) (s : VisionState)
    (hab : (finishScan ab n s).aborted = true) :
    (finishScan ab n s).final.status = s.status ∧
    (∀ x ∈ (finishScan ab n s).trace, x.status = s.status) ∧
    ((finishScan ab n s).final = s ∨ (finishScan ab n s).final ∈ (finishScan ab n s).trace) := by
  unfold finishScan at hab ⊢
  split_ifs at hab ⊢ with h
  · exact ⟨rfl, by simp, Or.inl rfl⟩

/-- An abandoned run (one whose break or post-loop gate observed the
cancellation) keeps the entry status on its final state and on every
published state, and its final state is the entry state or one of the
published states. -/
lemma scanLoopGo_abort (det : ℚ → Bool) (ab : ℕ → Bool) (duration : ℚ) :
    ∀ fuel t n dets s,
      (scanLoopGo det ab duration fuel t n dets s).aborted = true →
      ((scanLoopGo det ab duration fuel t n dets s).final.status = s.status ∧
       (∀ x ∈ (scanLoopGo det ab duration fuel t n dets s).trace, x.status = s.status) ∧
       ((scanLoopGo det ab duration fuel t n dets s).final = s ∨
        (scanLoopGo det ab duration fuel t n dets s).final ∈
          (scanLoopGo det ab duration fuel t n dets s).trace)) := by
  intro fuel
  induction fuel with
  | zero =>
    intro t n dets s hab
    rw [scanLoopGo] at hab ⊢
    exact finishScan_abort ab n s hab
  | succ f ih =>
    intro t n dets s hab
    rw [scanLoopGo] at hab ⊢
    split_ifs at hab ⊢ with h1 h2 h3 h4
    · exact finishScan_abort ab (n + 1) s hab
    · exact finishScan_abort ab (n + 2) s hab
    · -- detection branch
      have habr : (scanLoopGo det ab duration f (t + 1 / 2) (n + 2)
          (dets ++ [{ timestamp := t, confidence := 1 }])
          ⟨s.isProcessing, min 100 (round (t / duration * 100)), s.status,
           dets ++ [{ timestamp := t, confidence := 1 }]⟩).aborted = true := hab
      have hrec := ih (t + 1 / 2) (n + 2) (dets ++ [{ timestamp := t, confidence := 1 }])
        ⟨s.isProcessing, min 100 (round (t / duration * 100)), s.status,
         dets ++ [{ timestamp := t, confidence := 1 }]⟩ habr
      refine ⟨hrec.1, ?_, Or.inr ?_⟩
      · intro x hx
        have hx2 : x = ⟨s.isProcessing, s.progress, s.status,
              dets ++ [{ timestamp := t, confidence := 1 }]⟩ ∨
            x = ⟨s.isProcessing, min 100 (round (t / duration * 100)), s.status,
                 dets ++ [{ timestamp := t, confidence := 1 }]⟩ ∨
            x ∈ (scanLoopGo det ab duration f (t + 1 / 2) (n + 2)
              (dets ++ [{ timestamp := t, confidence := 1 }])
              ⟨s.isProcessing, min 100 (round (t / duration * 100)), s.status,
               dets ++ [{ timestamp := t, confidence := 1 }]⟩).trace := by
          simpa using hx
        rcases hx2 with hxe | hxe | hxm
        · rw [hxe]
        · rw [hxe]
        · exact hrec.2.1 x hxm
      · rcases hrec.2.2 with hfe | hfm
        · exact List.mem_cons_of_mem _ (by rw [hfe]; exact List.mem_cons_self _ _)
        · exact List.mem_cons_of_mem _ (List.mem_cons_of_mem _ hfm)
    · -- no-detection branch
      have habr : (scanLoopGo det ab duration f (t + 1 / 2) (n + 2) dets
          ⟨s.isProcessing, min 100 (round (t / duration * 100)), s.status,
           s.detections⟩).aborted = true := hab
      have hrec := ih (t + 1 / 2) (n + 2) dets
        ⟨s.isProcessing, min 100 (round (t / duration * 100)), s.status, s.detections⟩ habr
      refine ⟨hrec.1, ?_, Or.inr ?_⟩
      · intro x hx
        have hx2 : x = ⟨s.isProcessing, min 100 (round (t / duration * 100)), s.status,
              s.detections⟩ ∨
            x ∈ (scanLoopGo det ab duration f (t + 1 / 2) (n + 2) dets
              ⟨s.isProcessing, min 100 (round (t / duration * 100)), s.status,
               s.detections⟩).trace := by
          simpa using hx
        rcases hx2 with hxe | hxm
        · rw [hxe]
        · exact hrec.2.1 x hxm
      · rcases hrec.2.2 with hfe | hfm
        · exact (by rw [hfe]; exact List.mem_cons_self _ _)
        · exact List.mem_cons_of_mem _ hfm
    · exact finishScan_abort ab n s hab

/-- C7: whenever the scan loop runs with no cancellation request, it
exhausts the video timeline and the session transitions to status
completed with progress 100; in particular, on a video entirely lacking
the target color (the detector never fires) it completes with zero
detection events. -/
theorem scanLoop_completes (det : ℚ → Bool) (ab : ℕ → Bool) (duration : ℚ)
    (hab : ∀ n, ab n = false) :
    (runScanLoop det ab duration).final.status = ScanStatus.completed ∧
    (runScanLoop det ab duration).final.progress = 100 ∧
    ((∀ t, det t = false) → (runScanLoop det ab duration).final.detections = []) := by
  obtain ⟨h1, h2⟩ := scanLoopGo_complete det ab duration hab (scanLoopFuel duration) 0 0 []
    processingStart
  refine ⟨h1, h2, ?_⟩
  intro hdet
  exact scanLoopGo_no_det det ab duration hdet (scanLoopFuel duration) 0 0 [] processingStart

/-- Witness for C7 on a one-second video with no cancellation and a
detector that never fires. -/
theorem scanLoop_completes_witness :
    (runScanLoop (fun _ => false) (fun _ => false) 1).final.status = ScanStatus.completed ∧
    (runScanLoop (fun _ => false) (fun _ => false) 1).final.progress = 100 ∧
    (runScanLoop (fun _ => false) (fun _ => false) 1).final.detections = [] := by
  have h := scanLoop_completes (fun _ => false) (fun _ => false) 1 (fun _ => rfl)
  exact ⟨h.1, h.2.1, h.2.2 (fun _ => rfl)⟩

/-- C8: once the loop observes a cancellation request it stops at that
checkpoint: the session never transitions to completed or error (its
status stays processing on the final state and on every published
update), no further state update is published (the final state is the
entry state or one of the already-published updates), and every
detection event collected before the cancellation remains in the
session state (every published detection list is a prefix of the final
one). -/
theorem scanLoop_cancelled (det : ℚ → Bool) (ab : ℕ → Bool) (duration : ℚ)
    (hab : (runScanLoop det ab duration).aborted = true) :
    (runScanLoop det ab duration).final.status = ScanStatus.processing ∧
    (∀ x ∈ (runScanLoop det ab duration).trace, x.status = ScanStatus.processing) ∧
    ((runScanLoop det ab duration).final = processingStart ∨
     (runScanLoop det ab duration).final ∈ (runScanLoop det ab duration).trace) ∧
    (∀ x ∈ processingStart :: (runScanLoop det ab duration).trace,
        x.detections <+: (runScanLoop det ab duration).final.detections) := by
  obtain ⟨h1, h2, h3⟩ := scanLoopGo_abort det ab duration (scanLoopFuel duration) 0 0 []
    processingStart hab
  exact ⟨h1, h2, h3,
    scanLoopGo_prefix det ab duration (scanLoopFuel duration) 0 0 [] processingStart rfl⟩

/-- Witness for C8: a cancellation requested before the loop starts on
a one-second video is observed at the first checkpoint. -/
theorem scanLoop_cancelled_witness :
    (runScanLoop (fun _ => false) (fun _ => true) 1).final.status = ScanStatus.processing ∧
    (∀ x ∈ (runScanLoop (fun _ => false) (fun _ => true) 1).trace,
        x.status = ScanStatus.processing) ∧
    ((runScanLoop (fun _ => false) (fun _ => true) 1).final = processingStart ∨
     (runScanLoop (fun _ => false) (fun _ => true) 1).final ∈
       (runScanLoop (fun _ => false) (fun _ => true) 1).trace) ∧
    (∀ x ∈ processingStart :: (runScanLoop (fun _ => false) (fun _ => true) 1).trace,
        x.detections <+: (runScanLoop (fun _ => false) (fun _ => true) 1).final.detections) :=
  scanLoop_cancelled (fun _ => false) (fun _ => true) 1 (by decide)

/-- C9: throughout a scan session (any detector, any cancellation
schedule, any duration) the detection events are appended in increasing
timestamp order — the final list is strictly increasing, hence
non-decreasing, in timestamp — and an event, once appended, is never
mutated or removed: every published detection list (and the entry list)
is a prefix of the final one. -/
theorem detections_append_only (det : ℚ → Bool) (ab : ℕ → Bool) (duration : ℚ) :
    List.Pairwise (fun a b : DetectionEvent => a.timestamp < b.timestamp)
      (runScanLoop det ab duration).final.detections ∧
    (∀ x ∈ processingStart :: (runScanLoop det ab duration).trace,
        x.detections <+: (runScanLoop det ab duration).final.detections) :=
  ⟨scanLoopGo_sorted det ab duration (scanLoopFuel duration) 0 0 [] processingStart rfl
      (by intro e he; exact absurd he (List.not_mem_nil e)) List.Pairwise.nil,
   scanLoopGo_prefix det ab duration (scanLoopFuel duration) 0 0 [] processingStart rfl⟩

/-- Witness for C9 on a run whose detector always fires. -/
theorem detections_append_only_witness :
    List.Pairwise (fun a b : DetectionEvent => a.timestamp < b.timestamp)
      (runScanLoop (fun _ => true) (fun _ => false) 1).final.detections ∧
    (∀ x ∈ processingStart :: (runScanLoop (fun _ => true) (fun _ => false) 1).trace,
        x.detections <+: (runScanLoop (fun _ => true) (fun _ => false) 1).final.detections) :=
  detections_append_only (fun _ => true) (fun _ => false) 1

end VisionButcher
